import Mathlib

/-!
Shallow embedding of `scripts/validate_workflows.py` (workflow bundle
validator) and verification of the specification's claims about it.

Modelling conventions:
* A bundle directory is modelled by the list of its immediate regular files
  (the script only ever looks at `p for p in bundle_dir.iterdir() if
  p.is_file()`); each file carries its name, its `stat().st_size` and its
  byte content (`open(path, "rb").read()` results, bytes as `Nat < 256`).
* YAML values (`yaml.safe_load` results) are an inductive `Yaml`; mapping
  keys are strings (the metadata schema only ever queries string keys).
  The parser itself (`read_text` + `yaml.safe_load`) is an external
  library, modelled as a parameter `pv : List Nat → Except String Yaml`
  from the file's bytes to either a parse error message or a value.
* Error reports are an inductive `ValError` carrying the data of each
  Python f-string; `renderError` produces the exact message text.
* SHA-256 (`hashlib`) is implemented concretely (FIPS 180-4, arithmetic on
  `Nat` with explicit `% 2^32`); the streaming object is modelled by its
  absorbed byte sequence, since `hashlib`'s `update` is concatenative.
-/

/-- YAML document values as produced by `yaml.safe_load` (mapping keys
restricted to strings, which is all the validator ever queries). -/
inductive Yaml where
  | null : Yaml
  | bool : Bool → Yaml
  | int : Int → Yaml
  | str : String → Yaml
  | list : List Yaml → Yaml
  | map : List (String × Yaml) → Yaml

/-- Python truthiness of a YAML value (`bool(x)`), used by the
`... or {}` coercions in the script. -/
def yamlTruthy : Yaml → Bool
  | Yaml.null => false
  | Yaml.bool b => b
  | Yaml.int n => n != 0
  | Yaml.str s => s != ""
  | Yaml.list l => !l.isEmpty
  | Yaml.map m => !m.isEmpty

/-- Python `str.__eq__` against an arbitrary YAML value: a string compares
equal only to an equal string, and unequal to every other type. -/
def yamlEqStr (v : Yaml) (s : String) : Bool :=
  match v with
  | Yaml.str t => t == s
  | _ => false

/-- An immediate regular file of a bundle directory: its name, the size
reported by `stat().st_size`, and its byte content. -/
structure FileEntry where
  name : String
  size : Nat
  content : List Nat
deriving DecidableEq

/-- A bundle directory: its path (as formatted by `f"{bundle_dir}"`) and
its immediate regular files in directory-enumeration order. -/
structure Bundle where
  path : String
  files : List FileEntry
deriving DecidableEq

/-- One validation error, carrying the data of the corresponding Python
f-string in `validate_bundle`. -/
inductive ValError where
  | missingFiles : String → List String → ValError
  | modelsCount : String → ValError
  | unknownFiles : String → List String → ValError
  | oversize : String → String → ValError
  | invalidMetadata : String → String → ValError
  | missingFields : String → List String → ValError
  | hashesNotMapping : String → ValError
  | hashesMissingKeys : String → ValError
  | hashMismatch : String → String → ValError
deriving DecidableEq

/-- `', '.join(xs)`. -/
def joinComma (xs : List String) : String := String.intercalate ", " xs

/-- The exact message text of each error, matching the script's
f-strings. -/
def renderError : ValError → String
  | ValError.missingFiles p ns => p ++ ": missing files: " ++ joinComma ns
  | ValError.modelsCount p => p ++ ": must contain exactly one .models file"
  | ValError.unknownFiles p ns => p ++ ": unknown files present: " ++ joinComma ns
  | ValError.oversize p n => p ++ ": " ++ n ++ " exceeds 2 MB"
  | ValError.invalidMetadata p m => p ++ ": invalid metadata.yaml (" ++ m ++ ")"
  | ValError.missingFields p ns => p ++ ": metadata missing fields: " ++ joinComma ns
  | ValError.hashesNotMapping p => p ++ ": metadata hashes must be a mapping"
  | ValError.hashesMissingKeys p => p ++ ": metadata hashes missing api_json/original_json"
  | ValError.hashMismatch p w => p ++ ": " ++ w ++ " hash mismatch"

/-- `MAX_SIZE_BYTES = 2 * 1024 * 1024`. -/
def MAX_SIZE_BYTES : Nat := 2 * 1024 * 1024

/-- `REQUIRED_FILES`, listed in sorted order (the script keeps a set and
sorts before reporting; these three names are already sorted). -/
def REQUIRED_FILES_SORTED : List String :=
  ["metadata.yaml", "workflow_api.json", "workflow_original.json"]

/-- `OPTIONAL_FILES`. -/
def OPTIONAL_FILES_LIST : List String := ["README.md", "preview.png"]

/-- `REQUIRED_META_FIELDS`, listed in sorted order (the script keeps a set
and sorts the missing ones before reporting). -/
def REQUIRED_META_FIELDS_SORTED : List String :=
  ["author", "compatible_cindergrace_versions", "contains_non_manager_nodes",
   "description", "hashes", "min_comfyui_version", "name",
   "non_manager_nodes_info", "recommended_vram_gb", "required_models",
   "tags", "version"]

/-- Code-point comparison of strings (Python's `<=` on the names the
script sorts). -/
def charListLe (xs ys : List Char) : Bool :=
  match xs, ys with
  | a :: as, b :: bs =>
    if a.toNat < b.toNat then true
    else if b.toNat < a.toNat then false
    else charListLe as bs
  | [], _ => true
  | _ :: _, [] => false

/-- String `<=` by code points. -/
def strLeB (a b : String) : Bool := charListLe a.toList b.toList

/-- Insert into a sorted list (helper for `sortStr`). -/
def insortStr (s : String) : List String → List String
  | [] => [s]
  | t :: ts => if strLeB s t then s :: t :: ts else t :: insortStr s ts

/-- Python's `sorted` on a list of strings (insertion sort; stable, but
the script only ever sorts sets, so stability is irrelevant). -/
def sortStr (l : List String) : List String := l.foldr insortStr []

/-- Is a string list sorted by code points (adjacent pairs `<=`)? -/
def sortedStrB : List String → Bool
  | [] => true
  | [_] => true
  | a :: b :: r => strLeB a b && sortedStrB (b :: r)

/-- CPython `PurePath.suffix` of a file name: `i = name.rfind('.')`;
the suffix is `name[i:]` when `0 < i < len(name) - 1`, else `''`.
In particular a dotfile like `.models` has suffix `''`. -/
def pySuffix (name : String) : String :=
  let l := name.toList
  match (l.reverse.findIdx? fun c => c == '.') with
  | none => ""
  | some r =>
    let i := l.length - 1 - r
    if 0 < i && i + 1 < l.length then String.mk (l.drop i) else ""

/-- `{p.name for p in bundle_dir.iterdir() if p.is_file()}` — the set of
immediate file names (as a duplicate-free list; directory entries are
unique in reality). -/
def bundleFileNames (b : Bundle) : List String :=
  (b.files.map FileEntry.name).dedup

/-- `sorted(REQUIRED_FILES - files)` — the missing required files. -/
def missingRequired (b : Bundle) : List String :=
  REQUIRED_FILES_SORTED.filter fun n => !(bundleFileNames b).contains n

/-- `[p.name for p in bundle_dir.iterdir() if p.is_file() and p.suffix ==
".models"]`. -/
def modelsFiles (b : Bundle) : List String :=
  (b.files.map FileEntry.name).filter fun n => pySuffix n == ".models"

/-- `allowed = REQUIRED_FILES | OPTIONAL_FILES | set(models_files)`. -/
def allowedOf (b : Bundle) : List String :=
  REQUIRED_FILES_SORTED ++ OPTIONAL_FILES_LIST ++ modelsFiles b

/-- `sorted(files - allowed)`. -/
def unknownOf (b : Bundle) : List String :=
  sortStr ((bundleFileNames b).filter fun n => !(allowedOf b).contains n)

/-- The unknown-file error block: one error when `unknown` is nonempty. -/
def unknownErrorsOf (b : Bundle) : List ValError :=
  if unknownOf b = [] then [] else [ValError.unknownFiles b.path (unknownOf b)]

/-- `(bundle_dir / name).stat().st_size` (0 when absent; the check only
consults files already known to exist). -/
def fileSize (b : Bundle) (n : String) : Nat :=
  ((b.files.find? fun f => f.name == n).map FileEntry.size).getD 0

/-- The byte content of a named file (empty when absent). -/
def fileContent (b : Bundle) (n : String) : List Nat :=
  ((b.files.find? fun f => f.name == n).map FileEntry.content).getD []

/-- The size-check error block: `for name in REQUIRED_FILES |
set(models_files): if stat().st_size > MAX_SIZE_BYTES: append`. Python's
set iteration order is unspecified; a fixed order (required files first)
is chosen here. -/
def sizeErrorsOf (b : Bundle) : List ValError :=
  (REQUIRED_FILES_SORTED ++ modelsFiles b).filterMap fun n =>
    if MAX_SIZE_BYTES < fileSize b n then some (ValError.oversize b.path n) else none

/-! ### SHA-256 (`hashlib.sha256`), FIPS 180-4, on `Nat` mod `2^32` -/

/-- Truncate to 32 bits. -/
def w32 (n : Nat) : Nat := n % 4294967296

/-- Rotate a 32-bit word right by `n` (the two shifted parts are
disjoint, so addition is bitwise or). -/
def rotr (n x : Nat) : Nat := w32 (x / 2 ^ n + x % 2 ^ n * 2 ^ (32 - n))

/-- Logical right shift. -/
def shr (n x : Nat) : Nat := x / 2 ^ n

/-- 32-bit complement. -/
def not32 (x : Nat) : Nat := 4294967295 - w32 x

/-- SHA-256 `Ch`. -/
def shaCh (x y z : Nat) : Nat := Nat.xor (Nat.land x y) (Nat.land (not32 x) z)

/-- SHA-256 `Maj`. -/
def shaMaj (x y z : Nat) : Nat :=
  Nat.xor (Nat.xor (Nat.land x y) (Nat.land x z)) (Nat.land y z)

/-- SHA-256 `Σ0`. -/
def bigSigma0 (x : Nat) : Nat := Nat.xor (Nat.xor (rotr 2 x) (rotr 13 x)) (rotr 22 x)

/-- SHA-256 `Σ1`. -/
def bigSigma1 (x : Nat) : Nat := Nat.xor (Nat.xor (rotr 6 x) (rotr 11 x)) (rotr 25 x)

/-- SHA-256 `σ0`. -/
def smallSigma0 (x : Nat) : Nat := Nat.xor (Nat.xor (rotr 7 x) (rotr 18 x)) (shr 3 x)

/-- SHA-256 `σ1`. -/
def smallSigma1 (x : Nat) : Nat := Nat.xor (Nat.xor (rotr 17 x) (rotr 19 x)) (shr 10 x)

/-- The 64 SHA-256 round constants. -/
def shaK : List Nat :=
  [1116352408, 1899447441, 3049323471, 3921009573, 961987163,
   1508970993, 2453635748, 2870763221, 3624381080, 310598401,
   607225278, 1426881987, 1925078388, 2162078206, 2614888103,
   3248222580, 3835390401, 4022224774, 264347078, 604807628,
   770255983, 1249150122, 1555081692, 1996064986, 2554220882,
   2821834349, 2952996808, 3210313671, 3336571891, 3584528711,
   113926993, 338241895, 666307205, 773529912, 1294757372,
   1396182291, 1695183700, 1986661051, 2177026350, 2456956037,
   2730485921, 2820302411, 3259730800, 3345764771, 3516065817,
   3600352804, 4094571909, 275423344, 430227734, 506948616,
   659060556, 883997877, 958139571, 1322822218, 1537002063,
   1747873779, 1955562222, 2024104815, 2227730452, 2361852424,
   2428436474, 2756734187, 3204031479, 3329325298]

/-- The SHA-256 initial hash value. -/
def shaH0 : List Nat :=
  [1779033703, 3144134277, 1013904242, 2773480762,
   1359893119, 2600822924, 528734635, 1541459225]

/-- Split a list into chunks of `k` elements (fuel-based structural
recursion so the definition reduces in the kernel; callers pass
`fuel = l.length` and `k ≥ 1`). -/
def chunksAux (k : Nat) : Nat → List Nat → List (List Nat)
  | 0, _ => []
  | _, [] => []
  | fuel + 1, a :: rest => ((a :: rest).take k) :: chunksAux k fuel ((a :: rest).drop k)

/-- Split a byte list into chunks of `k` bytes. -/
def chunksOf (k : Nat) (l : List Nat) : List (List Nat) := chunksAux k l.length l

/-- SHA-256 padding: append `0x80`, zeros to 56 mod 64, then the bit
length as 8 big-endian bytes. -/
def shaPad (msg : List Nat) : List Nat :=
  let z := (120 - (msg.length + 1) % 64) % 64
  msg ++ 0x80 :: List.replicate z 0
      ++ ((List.range 8).map fun i => msg.length * 8 / 2 ^ (8 * (7 - i)) % 256)

/-- Four big-endian bytes to one 32-bit word. -/
def bytesToWord (bs : List Nat) : Nat := bs.foldl (fun acc b => acc * 256 + b % 256) 0

/-- Message-schedule extension: `acc` holds the schedule so far in
reverse order; `n` more words are produced. -/
def schedAux : Nat → List Nat → List Nat
  | 0, acc => acc
  | n + 1, acc =>
    schedAux n
      (w32 (smallSigma1 (acc.getD 1 0) + acc.getD 6 0
        + smallSigma0 (acc.getD 14 0) + acc.getD 15 0) :: acc)

/-- The 64-word message schedule of one 16-word block. -/
def schedule (ws : List Nat) : List Nat := (schedAux 48 ws.reverse).reverse

/-- One SHA-256 round: state `(a,b,c,d,e,f,g,h)`, input `(Kt, Wt)`. -/
def shaRound (st : Nat × Nat × Nat × Nat × Nat × Nat × Nat × Nat) (kw : Nat × Nat) :
    Nat × Nat × Nat × Nat × Nat × Nat × Nat × Nat :=
  match st, kw with
  | (a, b, c, d, e, f, g, h), (kt, wt) =>
    let t1 := w32 (h + bigSigma1 e + shaCh e f g + kt + wt)
    let t2 := w32 (bigSigma0 a + shaMaj a b c)
    (w32 (t1 + t2), a, b, c, w32 (d + t1), e, f, g)

/-- Compress one 64-byte block into the running hash (8 words). -/
def shaCompress (hs : List Nat) (block : List Nat) : List Nat :=
  let ws := schedule ((chunksOf 4 block).map bytesToWord)
  match (shaK.zip ws).foldl shaRound
      (hs.getD 0 0, hs.getD 1 0, hs.getD 2 0, hs.getD 3 0,
       hs.getD 4 0, hs.getD 5 0, hs.getD 6 0, hs.getD 7 0) with
  | (a, b, c, d, e, f, g, h) =>
    [w32 (hs.getD 0 0 + a), w32 (hs.getD 1 0 + b), w32 (hs.getD 2 0 + c),
     w32 (hs.getD 3 0 + d), w32 (hs.getD 4 0 + e), w32 (hs.getD 5 0 + f),
     w32 (hs.getD 6 0 + g), w32 (hs.getD 7 0 + h)]

/-- The lowercase hex alphabet. -/
def lowerHexChars : List Char := "0123456789abcdef".toList

/-- One lowercase hex digit. -/
def hexDigit (n : Nat) : Char := lowerHexChars.getD n '0'

/-- Eight lowercase hex digits of a 32-bit word, big-endian. -/
def wordToHexChars (n : Nat) : List Char :=
  (List.range 8).map fun i => hexDigit (n / 16 ^ (7 - i) % 16)

/-- The hex digest characters of a message. -/
def sha256hexChars (msg : List Nat) : List Char :=
  (((chunksOf 64 (shaPad msg)).foldl shaCompress shaH0).map wordToHexChars).flatten

/-- `hashlib.sha256(msg).hexdigest()` — the one-pass digest of a byte
sequence, as a lowercase hex string. -/
def sha256hex (msg : List Nat) : String := String.mk (sha256hexChars msg)

/-- `f.read(1024 * 1024)` streaming: the chunks successively returned
until `b""`. -/
def readChunks (content : List Nat) : List (List Nat) := chunksOf (1024 * 1024) content

/-- `sha256_file`: stream the file in 1 MiB chunks through `update` (the
digest object's state is the bytes absorbed so far, since `update` is
concatenative) and return `hexdigest()`. -/
def sha256_file (content : List Nat) : String :=
  sha256hex ((readChunks content).foldl (fun s ch => s ++ ch) [])

/-- `load_metadata`: `data = yaml.safe_load(text) or {}`; reject non-dict
with `ValueError("metadata.yaml must be a mapping")`. `pv` models
`read_text` + `yaml.safe_load` on the file's bytes. -/
def load_metadata (pv : List Nat → Except String Yaml) (content : List Nat) :
    Except String (List (String × Yaml)) :=
  match pv content with
  | Except.error e => Except.error e
  | Except.ok v =>
    match (if yamlTruthy v then v else Yaml.map []) with
    | Yaml.map kvs => Except.ok kvs
    | _ => Except.error "metadata.yaml must be a mapping"

/-- Steps 5–8 of `validate_bundle` (metadata parse, schema, hashes field,
hash verification), returning the errors they append. -/
def metaErrorsOf (pv : List Nat → Except String Yaml) (b : Bundle) : List ValError :=
  match load_metadata pv (fileContent b "metadata.yaml") with
  | Except.error e => [ValError.invalidMetadata b.path e]
  | Except.ok meta =>
    let missingFields :=
      REQUIRED_META_FIELDS_SORTED.filter fun k => !(meta.map Prod.fst).contains k
    if missingFields = [] then
      let hv := (List.lookup "hashes" meta).getD Yaml.null
      match (if yamlTruthy hv then hv else Yaml.map []) with
      | Yaml.map hkvs =>
        if (hkvs.map Prod.fst).contains "api_json"
            && (hkvs.map Prod.fst).contains "original_json" then
          let apiHash := sha256_file (fileContent b "workflow_api.json")
          let origHash := sha256_file (fileContent b "workflow_original.json")
          (if yamlEqStr ((List.lookup "api_json" hkvs).getD Yaml.null) apiHash
            then [] else [ValError.hashMismatch b.path "api_json"])
          ++ (if yamlEqStr ((List.lookup "original_json" hkvs).getD Yaml.null) origHash
            then [] else [ValError.hashMismatch b.path "original_json"])
        else [ValError.hashesMissingKeys b.path]
      | _ => [ValError.hashesNotMapping b.path]
    else [ValError.missingFields b.path missingFields]

/-- `validate_bundle` — the full error list one bundle contributes, in
append order. -/
def validate_bundle (pv : List Nat → Except String Yaml) (b : Bundle) : List ValError :=
  if missingRequired b = [] then
    if (modelsFiles b).length = 1 then
      unknownErrorsOf b ++ sizeErrorsOf b ++ metaErrorsOf pv b
    else [ValError.modelsCount b.path]
  else [ValError.missingFiles b.path (missingRequired b)]

/-- A filesystem entry yielded by `root.rglob("*")`, in the order the
operating system enumerates it: its path, whether it is a directory, and
whether `entry / "metadata.yaml"` exists. -/
structure FsEntry where
  path : String
  isDir : Bool
  hasMetadataYaml : Bool
deriving DecidableEq

/-- `[p for p in root.rglob("*") if p.is_dir() and (p / "metadata.yaml").exists()]`
— the discovered bundle paths, in enumeration order (no sorting in the
script). -/
def discoverBundles (entries : List FsEntry) : List String :=
  (entries.filter fun e => e.isDir && e.hasMetadataYaml).map FsEntry.path

/-- The exit code and console lines of one run of `main`. -/
structure RunResult where
  exitCode : Nat
  output : List String
deriving DecidableEq

/-- The no-bundles warning line. -/
def warningLine : String := "WARNING: No workflow bundles found (metadata.yaml missing)"

/-- `main`, after argument parsing and bundle discovery: `rootPath` is the
resolved root, `rootExistsB` the result of `root.exists()`, and `bundles`
the discovered bundle list. Errors accumulate across bundles in a single
shared list. -/
def mainRun (pv : List Nat → Except String Yaml) (rootPath : String)
    (rootExistsB : Bool) (bundles : List Bundle) : RunResult :=
  if rootExistsB then
    if bundles = [] then ⟨0, [warningLine]⟩
    else
      let errors := bundles.foldl (fun acc b => acc ++ validate_bundle pv b) []
      if errors = [] then
        ⟨0, ["Validation OK: " ++ toString bundles.length ++ " bundle(s)"]⟩
      else ⟨1, "VALIDATION FAILED:" :: errors.map (fun e => "- " ++ renderError e)⟩
  else ⟨1, ["ERROR: workflows root not found: " ++ rootPath]⟩

/-- The one-pass SHA-256 of a file's full content (the comparison point
of the spec's round-trip property; the streamed implementation is
`sha256_file`). -/
def sha256OneShot (content : List Nat) : String := sha256hex content

/-! ### Shared helper lemmas -/

/-- Folding append over chunks equals the flattened chunks. -/
lemma foldl_append_eq_flatten (L : List (List Nat)) (acc : List Nat) :
    L.foldl (fun s ch => s ++ ch) acc = acc ++ L.flatten := by
  induction L generalizing acc with
  | nil => simp
  | cons c cs ih => simp [List.foldl_cons, ih, List.append_assoc]

/-- Chunking then flattening restores the original list (for positive
chunk size and enough fuel). -/
lemma flatten_chunksAux (k : Nat) (hk : 1 ≤ k) :
    ∀ (fuel : Nat) (l : List Nat), l.length ≤ fuel → (chunksAux k fuel l).flatten = l := by
  intro fuel
  induction fuel with
  | zero =>
    intro l hl
    have : l = [] := List.eq_nil_of_length_eq_zero (Nat.le_zero.mp hl)
    subst this
    rfl
  | succ n ih =>
    intro l hl
    cases l with
    | nil => rfl
    | cons a rest =>
      have hdrop : ((a :: rest).drop k).length ≤ n := by
        rw [List.length_drop]
        omega
      calc ((chunksAux k (n + 1) (a :: rest))).flatten
          = (a :: rest).take k ++ (chunksAux k n ((a :: rest).drop k)).flatten := by
            simp [chunksAux]
        _ = (a :: rest).take k ++ (a :: rest).drop k := by rw [ih _ hdrop]
        _ = a :: rest := List.take_append_drop k (a :: rest)

/-- Membership in `insortStr`. -/
lemma mem_insortStr (s t : String) (l : List String) :
    t ∈ insortStr s l ↔ t = s ∨ t ∈ l := by
  induction l with
  | nil => simp [insortStr]
  | cons a as ih =>
    by_cases h : strLeB s a = true
    · simp [insortStr, h]
    · simp only [insortStr, h, if_false, Bool.false_eq_true, List.mem_cons, ih]
      tauto

/-- `sortStr` is a permutation membership-wise. -/
lemma mem_sortStr (t : String) (l : List String) : t ∈ sortStr l ↔ t ∈ l := by
  induction l with
  | nil => simp [sortStr]
  | cons a as ih =>
    simp only [sortStr, List.foldr_cons] at *
    rw [mem_insortStr, ih, List.mem_cons]

/-- A bundle that passes the required-file and models-count checks yields
the three non-fatal/metadata blocks in order. -/
lemma validate_bundle_passes (pv : List Nat → Except String Yaml) (b : Bundle)
    (hreq : missingRequired b = []) (hmod : (modelsFiles b).length = 1) :
    validate_bundle pv b = unknownErrorsOf b ++ sizeErrorsOf b ++ metaErrorsOf pv b := by
  simp [validate_bundle, hreq, hmod]

/-! ### Claim theorems -/

/-- **C9** — The SHA-256 of a file computed by streaming its content in
1 MiB chunks (`sha256_file`) equals the SHA-256 computed over the full
content in one pass, for every content, in particular both smaller and
larger than the chunk size. -/
theorem spec_c9_stream_eq_oneshot (content : List Nat) :
    sha256_file content = sha256OneShot content := by
  unfold sha256_file sha256OneShot readChunks chunksOf
  rw [foldl_append_eq_flatten, List.nil_append,
    flatten_chunksAux (1024 * 1024) (by omega) content.length content (Nat.le_refl _)]

/-- **C1** — Bundle discovery keeps `rglob`'s filesystem enumeration
order: with two bundle directories enumerated as `w/b` before `w/a`, the
discovered list is `[w/b, w/a]`, which is not sorted by path, and
reversing the enumeration order changes the result (so the list is not
deterministic across runs, contradicting the claim). -/
theorem spec_c1_discovery_unsorted :
    discoverBundles [⟨"w/b", true, true⟩, ⟨"w/a", true, true⟩] = ["w/b", "w/a"]
    ∧ sortedStrB ["w/b", "w/a"] = false
    ∧ discoverBundles [⟨"w/b", true, true⟩, ⟨"w/a", true, true⟩]
      ≠ discoverBundles [⟨"w/a", true, true⟩, ⟨"w/b", true, true⟩] := by
  refine ⟨rfl, rfl, ?_⟩
  decide

/-- **C3** — A bundle missing at least one required file yields exactly
one error, the missing-files error naming exactly the required files not
present among its immediate files, and no other check runs for it. -/
theorem spec_c3_missing_required (pv : List Nat → Except String Yaml) (b : Bundle)
    (h : missingRequired b ≠ []) :
    validate_bundle pv b = [ValError.missingFiles b.path (missingRequired b)]
    ∧ ∀ n, n ∈ missingRequired b
        ↔ n ∈ REQUIRED_FILES_SORTED ∧ (bundleFileNames b).contains n = false := by
  constructor
  · simp [validate_bundle, h]
  · intro n
    simp [missingRequired, List.mem_filter]

/-- **C3** witness: the empty bundle directory is missing all three
required files and gets exactly the one missing-files error. -/
theorem spec_c3_missing_required_witness :
    missingRequired ⟨"wb3", []⟩ ≠ []
    ∧ (validate_bundle (fun _ => Except.error "e") ⟨"wb3", []⟩
        = [ValError.missingFiles "wb3" (missingRequired ⟨"wb3", []⟩)]
      ∧ ∀ n, n ∈ missingRequired ⟨"wb3", []⟩
          ↔ n ∈ REQUIRED_FILES_SORTED ∧ (bundleFileNames ⟨"wb3", []⟩).contains n = false) := by
  have h : missingRequired ⟨"wb3", []⟩ ≠ [] := by decide
  exact ⟨h, spec_c3_missing_required (fun _ => Except.error "e") ⟨"wb3", []⟩ h⟩

/-! ### Concrete inputs for witnesses and counterexamples -/

/-- A metadata mapping containing all twelve required fields, with a given
value for `hashes`. -/
def metaWith (hv : Yaml) : List (String × Yaml) :=
  [("name", Yaml.str "n"), ("version", Yaml.str "1"), ("author", Yaml.str "a"),
   ("description", Yaml.str "d"), ("tags", Yaml.list [Yaml.str "t"]),
   ("min_comfyui_version", Yaml.str "0.1"),
   ("compatible_cindergrace_versions", Yaml.list [Yaml.str "1"]),
   ("required_models", Yaml.list []), ("recommended_vram_gb", Yaml.int 8),
   ("contains_non_manager_nodes", Yaml.bool false),
   ("non_manager_nodes_info", Yaml.str ""), ("hashes", hv)]

/-- The four files of a well-formed bundle directory. -/
def wfFiles : List FileEntry :=
  [⟨"metadata.yaml", 10, [109]⟩, ⟨"workflow_api.json", 4, [97, 112]⟩,
   ⟨"workflow_original.json", 4, [111]⟩, ⟨"wf.models", 2, [107]⟩]

/-- Does a name end in the seven characters `.models`? (The reading of
the claim, as opposed to the code's `p.suffix == ".models"`.) -/
def endsWithModels (s : String) : Bool :=
  s.toList.drop (s.toList.length - 7) == ".models".toList

/-- C5's counterexample bundle: the required files plus `a.models` and the
dotfile `.models`; two names end in `.models` but only one has pathlib
suffix `.models`. -/
def bundleC5 : Bundle :=
  ⟨"w5", [⟨"metadata.yaml", 1, []⟩, ⟨"workflow_api.json", 1, []⟩,
          ⟨"workflow_original.json", 1, []⟩, ⟨"a.models", 1, []⟩,
          ⟨".models", 1, []⟩]⟩

/-- **C5** counterexample — `bundleC5` has exactly two immediate files
whose name ends in `.models`, yet validation emits no
"must contain exactly one .models file" error for it (it emits an
unknown-file error for `.models` and proceeds), because the code counts
`p.suffix == ".models"` and the dotfile `.models` has empty suffix. -/
theorem spec_c5_counterexample :
    ((bundleC5.files.map FileEntry.name).filter endsWithModels).length = 2
    ∧ (∀ e ∈ validate_bundle (fun _ => Except.error "boom") bundleC5,
        e ≠ ValError.modelsCount "w5")
    ∧ validate_bundle (fun _ => Except.error "boom") bundleC5
        = [ValError.unknownFiles "w5" [".models"],
           ValError.invalidMetadata "w5" "boom"] := by
  decide

/-- **C5** (amended) — for a bundle with all required files present, if
the number of immediate files whose *pathlib suffix* is `.models` (i.e.
whose name ends in `.models` and is not exactly `.models`) is zero or
greater than one, validation emits exactly the one
"must contain exactly one .models file" error and aborts the remaining
checks for the bundle. -/
theorem spec_c5_models_count (pv : List Nat → Except String Yaml) (b : Bundle)
    (hreq : missingRequired b = []) (hmod : (modelsFiles b).length ≠ 1) :
    validate_bundle pv b = [ValError.modelsCount b.path]
    ∧ ∀ n, n ∈ modelsFiles b
        ↔ n ∈ b.files.map FileEntry.name ∧ pySuffix n = ".models" := by
  constructor
  · simp [validate_bundle, hreq, hmod]
  · intro n
    simp [modelsFiles, List.mem_filter]

/-- **C5** witness: a bundle with the three required files and no
`.models` file gets exactly the models-count error. -/
theorem spec_c5_models_count_witness :
    missingRequired ⟨"w5w", [⟨"metadata.yaml", 1, []⟩, ⟨"workflow_api.json", 1, []⟩,
        ⟨"workflow_original.json", 1, []⟩]⟩ = []
    ∧ (modelsFiles ⟨"w5w", [⟨"metadata.yaml", 1, []⟩, ⟨"workflow_api.json", 1, []⟩,
        ⟨"workflow_original.json", 1, []⟩]⟩).length ≠ 1
    ∧ (validate_bundle (fun _ => Except.error "e") ⟨"w5w", [⟨"metadata.yaml", 1, []⟩,
          ⟨"workflow_api.json", 1, []⟩, ⟨"workflow_original.json", 1, []⟩]⟩
        = [ValError.modelsCount "w5w"]
      ∧ ∀ n, n ∈ modelsFiles ⟨"w5w", [⟨"metadata.yaml", 1, []⟩,
            ⟨"workflow_api.json", 1, []⟩, ⟨"workflow_original.json", 1, []⟩]⟩
          ↔ n ∈ [⟨"metadata.yaml", 1, []⟩, ⟨"workflow_api.json", 1, []⟩,
              (⟨"workflow_original.json", 1, []⟩ : FileEntry)].map FileEntry.name
            ∧ pySuffix n = ".models") := by
  have h1 : missingRequired ⟨"w5w", [⟨"metadata.yaml", 1, []⟩, ⟨"workflow_api.json", 1, []⟩,
      ⟨"workflow_original.json", 1, []⟩]⟩ = [] := by decide
  have h2 : (modelsFiles ⟨"w5w", [⟨"metadata.yaml", 1, []⟩, ⟨"workflow_api.json", 1, []⟩,
      ⟨"workflow_original.json", 1, []⟩]⟩).length ≠ 1 := by decide
  exact ⟨h1, h2, spec_c5_models_count (fun _ => Except.error "e") _ h1 h2⟩

/-- **C6** — for a bundle passing the required-file and models-count
checks, the unknown-file check lists exactly the files outside the
allow-list in one error when there are any, and is non-fatal: the size
and metadata/hash stages still contribute their errors afterwards. -/
theorem spec_c6_unknown_nonfatal (pv : List Nat → Except String Yaml) (b : Bundle)
    (hreq : missingRequired b = []) (hmod : (modelsFiles b).length = 1) :
    validate_bundle pv b = unknownErrorsOf b ++ sizeErrorsOf b ++ metaErrorsOf pv b
    ∧ (unknownOf b ≠ [] →
        unknownErrorsOf b = [ValError.unknownFiles b.path (unknownOf b)])
    ∧ ∀ n, n ∈ unknownOf b
        ↔ n ∈ bundleFileNames b ∧ (allowedOf b).contains n = false := by
  refine ⟨validate_bundle_passes pv b hreq hmod, ?_, ?_⟩
  · intro h
    simp [unknownErrorsOf, h]
  · intro n
    rw [unknownOf, mem_sortStr]
    simp [List.mem_filter]

/-- **C6** witness: a bundle with the extra file `notes.txt` gets the one
unknown-file error naming it, followed by the later stages' errors. -/
theorem spec_c6_unknown_nonfatal_witness :
    missingRequired ⟨"w6", wfFiles ++ [⟨"notes.txt", 1, []⟩]⟩ = []
    ∧ (modelsFiles ⟨"w6", wfFiles ++ [⟨"notes.txt", 1, []⟩]⟩).length = 1
    ∧ (validate_bundle (fun _ => Except.ok Yaml.null) ⟨"w6", wfFiles ++ [⟨"notes.txt", 1, []⟩]⟩
        = unknownErrorsOf ⟨"w6", wfFiles ++ [⟨"notes.txt", 1, []⟩]⟩
          ++ sizeErrorsOf ⟨"w6", wfFiles ++ [⟨"notes.txt", 1, []⟩]⟩
          ++ metaErrorsOf (fun _ => Except.ok Yaml.null) ⟨"w6", wfFiles ++ [⟨"notes.txt", 1, []⟩]⟩
      ∧ (unknownOf ⟨"w6", wfFiles ++ [⟨"notes.txt", 1, []⟩]⟩ ≠ [] →
          unknownErrorsOf ⟨"w6", wfFiles ++ [⟨"notes.txt", 1, []⟩]⟩
            = [ValError.unknownFiles "w6" (unknownOf ⟨"w6", wfFiles ++ [⟨"notes.txt", 1, []⟩]⟩)])
      ∧ ∀ n, n ∈ unknownOf ⟨"w6", wfFiles ++ [⟨"notes.txt", 1, []⟩]⟩
          ↔ n ∈ bundleFileNames ⟨"w6", wfFiles ++ [⟨"notes.txt", 1, []⟩]⟩
            ∧ (allowedOf ⟨"w6", wfFiles ++ [⟨"notes.txt", 1, []⟩]⟩).contains n = false) := by
  have h1 : missingRequired ⟨"w6", wfFiles ++ [⟨"notes.txt", 1, []⟩]⟩ = [] := by decide
  have h2 : (modelsFiles ⟨"w6", wfFiles ++ [⟨"notes.txt", 1, []⟩]⟩).length = 1 := by decide
  exact ⟨h1, h2, spec_c6_unknown_nonfatal (fun _ => Except.ok Yaml.null) _ h1 h2⟩

/-- C2's counterexample bundle: well-formed, all twelve metadata fields
present, but `hashes` is the empty string — a non-mapping value. -/
def bundleC2 : Bundle := ⟨"w2", wfFiles⟩

/-- C2's parse result: the metadata mapping with `hashes: ""`. -/
def pvC2 : List Nat → Except String Yaml :=
  fun _ => Except.ok (Yaml.map (metaWith (Yaml.str "")))

/-- **C2** counterexample — with `hashes: ""` (a string, not a mapping),
validation reports the missing-sub-keys error, not the
"hashes must be a mapping" error: `hashes = meta.get("hashes") or {}`
first coerces every falsy value to the empty dict. -/
theorem spec_c2_counterexample :
    (List.lookup "hashes" (metaWith (Yaml.str ""))).getD Yaml.null = Yaml.str ""
    ∧ (∀ kvs, Yaml.str "" ≠ Yaml.map kvs)
    ∧ validate_bundle pvC2 bundleC2 = [ValError.hashesMissingKeys "w2"]
    ∧ (∀ e ∈ validate_bundle pvC2 bundleC2, e ≠ ValError.hashesNotMapping "w2") := by
  refine ⟨rfl, ?_, ?_, ?_⟩
  · intro kvs h
    cases h
  · decide
  · decide

/-- **C2** (amended) — for a bundle that reaches the hashes-field check:
if the `hashes` value is *truthy* and not a mapping, validation reports
the "hashes must be a mapping" error and aborts; a falsy value is first
coerced to the empty mapping by `or {}`; and if the (coerced) mapping
lacks either required sub-key, validation reports the one missing-keys
error and aborts. -/
theorem spec_c2_hashes_field (pv : List Nat → Except String Yaml) (b : Bundle)
    (meta : List (String × Yaml))
    (hreq : missingRequired b = []) (hmod : (modelsFiles b).length = 1)
    (hmeta : load_metadata pv (fileContent b "metadata.yaml") = Except.ok meta)
    (hfields : REQUIRED_META_FIELDS_SORTED.filter
      (fun k => !(meta.map Prod.fst).contains k) = []) :
    (yamlTruthy ((List.lookup "hashes" meta).getD Yaml.null) = true →
      (∀ kvs, (List.lookup "hashes" meta).getD Yaml.null ≠ Yaml.map kvs) →
      validate_bundle pv b
        = unknownErrorsOf b ++ sizeErrorsOf b ++ [ValError.hashesNotMapping b.path])
    ∧ (yamlTruthy ((List.lookup "hashes" meta).getD Yaml.null) = false →
        validate_bundle pv b
          = unknownErrorsOf b ++ sizeErrorsOf b ++ [ValError.hashesMissingKeys b.path])
    ∧ (∀ hkvs,
        (if yamlTruthy ((List.lookup "hashes" meta).getD Yaml.null)
          then (List.lookup "hashes" meta).getD Yaml.null
          else Yaml.map []) = Yaml.map hkvs →
        ((hkvs.map Prod.fst).contains "api_json"
          && (hkvs.map Prod.fst).contains "original_json") = false →
        validate_bundle pv b
          = unknownErrorsOf b ++ sizeErrorsOf b ++ [ValError.hashesMissingKeys b.path]) := by
  rw [validate_bundle_passes pv b hreq hmod]
  refine ⟨?_, ?_, ?_⟩
  · intro htr hnm
    have hm : metaErrorsOf pv b = [ValError.hashesNotMapping b.path] := by
      simp only [metaErrorsOf, hmeta, hfields, if_pos rfl]
      cases hv : (List.lookup "hashes" meta).getD Yaml.null with
      | null => rw [hv] at htr; simp [yamlTruthy] at htr
      | bool v => rw [hv] at htr; simp [htr]
      | int v => rw [hv] at htr; simp [htr]
      | str v => rw [hv] at htr; simp [htr]
      | list v => rw [hv] at htr; simp [htr]
      | map v => exact absurd hv (hnm v)
    rw [hm]
  · intro hfa
    have hm : metaErrorsOf pv b = [ValError.hashesMissingKeys b.path] := by
      simp only [metaErrorsOf, hmeta, hfields, if_pos rfl, hfa]
      simp
    rw [hm]
  · intro hkvs hcoerce hkeys
    have hm : metaErrorsOf pv b = [ValError.hashesMissingKeys b.path] := by
      simp only [metaErrorsOf, hmeta, hfields, if_pos rfl, hcoerce, hkeys]
      simp
    rw [hm]

/-- **C2** witness: with `hashes: [1]` (truthy, not a mapping) the
must-be-a-mapping error is reported after the non-fatal blocks. -/
theorem spec_c2_hashes_field_witness :
    missingRequired ⟨"w2w", wfFiles⟩ = []
    ∧ (modelsFiles ⟨"w2w", wfFiles⟩).length = 1
    ∧ load_metadata (fun _ => Except.ok (Yaml.map (metaWith (Yaml.list [Yaml.int 1]))))
        (fileContent ⟨"w2w", wfFiles⟩ "metadata.yaml")
        = Except.ok (metaWith (Yaml.list [Yaml.int 1]))
    ∧ REQUIRED_META_FIELDS_SORTED.filter
        (fun k => !((metaWith (Yaml.list [Yaml.int 1])).map Prod.fst).contains k) = []
    ∧ yamlTruthy ((List.lookup "hashes" (metaWith (Yaml.list [Yaml.int 1]))).getD Yaml.null) = true
    ∧ (∀ kvs, (List.lookup "hashes" (metaWith (Yaml.list [Yaml.int 1]))).getD Yaml.null
        ≠ Yaml.map kvs)
    ∧ validate_bundle (fun _ => Except.ok (Yaml.map (metaWith (Yaml.list [Yaml.int 1]))))
        ⟨"w2w", wfFiles⟩
        = unknownErrorsOf ⟨"w2w", wfFiles⟩ ++ sizeErrorsOf ⟨"w2w", wfFiles⟩
          ++ [ValError.hashesNotMapping "w2w"] := by
  have h1 : missingRequired ⟨"w2w", wfFiles⟩ = [] := by decide
  have h2 : (modelsFiles ⟨"w2w", wfFiles⟩).length = 1 := by decide
  have h3 : load_metadata (fun _ => Except.ok (Yaml.map (metaWith (Yaml.list [Yaml.int 1]))))
      (fileContent ⟨"w2w", wfFiles⟩ "metadata.yaml")
      = Except.ok (metaWith (Yaml.list [Yaml.int 1])) := rfl
  have h4 : REQUIRED_META_FIELDS_SORTED.filter
      (fun k => !((metaWith (Yaml.list [Yaml.int 1])).map Prod.fst).contains k) = [] := by
    decide
  have h5 : yamlTruthy ((List.lookup "hashes"
      (metaWith (Yaml.list [Yaml.int 1]))).getD Yaml.null) = true := rfl
  have h6 : ∀ kvs, (List.lookup "hashes" (metaWith (Yaml.list [Yaml.int 1]))).getD Yaml.null
      ≠ Yaml.map kvs := fun kvs h => by cases h
  exact ⟨h1, h2, h3, h4, h5, h6,
    (spec_c2_hashes_field _ _ _ h1 h2 h3 h4).1 h5 h6⟩

/-- **C10** — when `metadata.yaml` is empty or parses to YAML null,
`load_metadata` coerces the document to the empty mapping instead of
rejecting it, so a bundle that reaches the metadata stage gets the
missing-fields error listing all twelve required keys, not an
"invalid metadata.yaml" parse error. -/
theorem spec_c10_null_metadata (pv : List Nat → Except String Yaml) (b : Bundle)
    (hreq : missingRequired b = []) (hmod : (modelsFiles b).length = 1)
    (hnull : pv (fileContent b "metadata.yaml") = Except.ok Yaml.null) :
    load_metadata pv (fileContent b "metadata.yaml") = Except.ok []
    ∧ validate_bundle pv b
        = unknownErrorsOf b ++ sizeErrorsOf b
          ++ [ValError.missingFields b.path REQUIRED_META_FIELDS_SORTED]
    ∧ REQUIRED_META_FIELDS_SORTED.length = 12 := by
  have hload : load_metadata pv (fileContent b "metadata.yaml") = Except.ok [] := by
    simp [load_metadata, hnull, yamlTruthy]
  refine ⟨hload, ?_, by decide⟩
  rw [validate_bundle_passes pv b hreq hmod]
  have hm : metaErrorsOf pv b
      = [ValError.missingFields b.path REQUIRED_META_FIELDS_SORTED] := by
    simp [metaErrorsOf, hload, REQUIRED_META_FIELDS_SORTED]
  rw [hm]

/-- **C10** witness: an otherwise well-formed bundle whose metadata file
parses to null gets exactly the twelve-key missing-fields error. -/
theorem spec_c10_null_metadata_witness :
    missingRequired ⟨"w10", wfFiles⟩ = []
    ∧ (modelsFiles ⟨"w10", wfFiles⟩).length = 1
    ∧ (fun _ => Except.ok Yaml.null : List Nat → Except String Yaml)
        (fileContent ⟨"w10", wfFiles⟩ "metadata.yaml") = Except.ok Yaml.null
    ∧ (load_metadata (fun _ => Except.ok Yaml.null)
        (fileContent ⟨"w10", wfFiles⟩ "metadata.yaml") = Except.ok []
      ∧ validate_bundle (fun _ => Except.ok Yaml.null) ⟨"w10", wfFiles⟩
          = unknownErrorsOf ⟨"w10", wfFiles⟩ ++ sizeErrorsOf ⟨"w10", wfFiles⟩
            ++ [ValError.missingFields "w10" REQUIRED_META_FIELDS_SORTED]
      ∧ REQUIRED_META_FIELDS_SORTED.length = 12) := by
  have h1 : missingRequired ⟨"w10", wfFiles⟩ = [] := by decide
  have h2 : (modelsFiles ⟨"w10", wfFiles⟩).length = 1 := by decide
  have h3 : (fun _ => Except.ok Yaml.null : List Nat → Except String Yaml)
      (fileContent ⟨"w10", wfFiles⟩ "metadata.yaml") = Except.ok Yaml.null := rfl
  exact ⟨h1, h2, h3, spec_c10_null_metadata (fun _ => Except.ok Yaml.null) _ h1 h2 h3⟩

/-- Every hex digit produced is a lowercase hex character. -/
lemma hexDigit_mem_lowerHexChars (n : Nat) : hexDigit n ∈ lowerHexChars := by
  unfold hexDigit
  by_cases h : n < lowerHexChars.length
  · rw [List.getD_eq_getElem _ _ h]
    exact List.getElem_mem h
  · rw [List.getD_eq_default _ _ (Nat.le_of_not_lt h)]
    decide

/-- Every character of a hex digest is a lowercase hex character. -/
lemma sha256hex_chars_lower (msg : List Nat) :
    ∀ c ∈ (sha256hex msg).toList, c ∈ lowerHexChars := by
  intro c hc
  have he : (sha256hex msg).toList = sha256hexChars msg := rfl
  rw [he, sha256hexChars, List.mem_flatten] at hc
  obtain ⟨l, hl, hcl⟩ := hc
  rw [List.mem_map] at hl
  obtain ⟨n, _, rfl⟩ := hl
  rw [wordToHexChars, List.mem_map] at hcl
  obtain ⟨i, _, rfl⟩ := hcl
  exact hexDigit_mem_lowerHexChars _

/-- Every character of a streamed file digest is a lowercase hex
character. -/
lemma sha256_file_chars_lower (content : List Nat) :
    ∀ c ∈ (sha256_file content).toList, c ∈ lowerHexChars := by
  rw [sha256_file]
  exact sha256hex_chars_lower _

/-- **C4** — for a bundle that reaches hash verification, each computed
digest (a lowercase hex string) is compared against the corresponding
recorded metadata value; each mismatch contributes its own error, both
comparisons happen regardless of the other, and two matches contribute
no hash error. -/
theorem spec_c4_hash_verification (pv : List Nat → Except String Yaml) (b : Bundle)
    (meta hkvs : List (String × Yaml))
    (hreq : missingRequired b = []) (hmod : (modelsFiles b).length = 1)
    (hmeta : load_metadata pv (fileContent b "metadata.yaml") = Except.ok meta)
    (hfields : REQUIRED_META_FIELDS_SORTED.filter
      (fun k => !(meta.map Prod.fst).contains k) = [])
    (hcoerce : (if yamlTruthy ((List.lookup "hashes" meta).getD Yaml.null)
        then (List.lookup "hashes" meta).getD Yaml.null
        else Yaml.map []) = Yaml.map hkvs)
    (hkeys : ((hkvs.map Prod.fst).contains "api_json"
        && (hkvs.map Prod.fst).contains "original_json") = true) :
    validate_bundle pv b
      = unknownErrorsOf b ++ sizeErrorsOf b
        ++ ((if yamlEqStr ((List.lookup "api_json" hkvs).getD Yaml.null)
              (sha256_file (fileContent b "workflow_api.json"))
            then [] else [ValError.hashMismatch b.path "api_json"])
          ++ (if yamlEqStr ((List.lookup "original_json" hkvs).getD Yaml.null)
              (sha256_file (fileContent b "workflow_original.json"))
            then [] else [ValError.hashMismatch b.path "original_json"]))
    ∧ (∀ c ∈ (sha256_file (fileContent b "workflow_api.json")).toList,
        c ∈ lowerHexChars)
    ∧ (∀ c ∈ (sha256_file (fileContent b "workflow_original.json")).toList,
        c ∈ lowerHexChars) := by
  refine ⟨?_, sha256_file_chars_lower _, sha256_file_chars_lower _⟩
  rw [validate_bundle_passes pv b hreq hmod]
  have hm : metaErrorsOf pv b
      = (if yamlEqStr ((List.lookup "api_json" hkvs).getD Yaml.null)
            (sha256_file (fileContent b "workflow_api.json"))
          then [] else [ValError.hashMismatch b.path "api_json"])
        ++ (if yamlEqStr ((List.lookup "original_json" hkvs).getD Yaml.null)
            (sha256_file (fileContent b "workflow_original.json"))
          then [] else [ValError.hashMismatch b.path "original_json"]) := by
    simp only [metaErrorsOf, hmeta, hfields, if_pos rfl, hcoerce, hkeys, if_true]
  rw [hm]

/-- C4's witness bundle metadata: a correct recorded `api_json` digest
and a wrong recorded `original_json` digest. -/
def hashesW : Yaml :=
  Yaml.map [("api_json", Yaml.str (sha256_file [97, 112])),
            ("original_json", Yaml.str "deadbeef")]

/-- **C4** witness: a well-formed bundle whose recorded `api_json` hash
matches and whose `original_json` hash does not. -/
theorem spec_c4_hash_verification_witness :
    missingRequired ⟨"w4", wfFiles⟩ = []
    ∧ (modelsFiles ⟨"w4", wfFiles⟩).length = 1
    ∧ load_metadata (fun _ => Except.ok (Yaml.map (metaWith hashesW)))
        (fileContent ⟨"w4", wfFiles⟩ "metadata.yaml") = Except.ok (metaWith hashesW)
    ∧ REQUIRED_META_FIELDS_SORTED.filter
        (fun k => !((metaWith hashesW).map Prod.fst).contains k) = []
    ∧ (if yamlTruthy ((List.lookup "hashes" (metaWith hashesW)).getD Yaml.null)
        then (List.lookup "hashes" (metaWith hashesW)).getD Yaml.null
        else Yaml.map [])
        = Yaml.map [("api_json", Yaml.str (sha256_file [97, 112])),
            ("original_json", Yaml.str "deadbeef")]
    ∧ (([("api_json", Yaml.str (sha256_file [97, 112])),
          ("original_json", Yaml.str "deadbeef")].map Prod.fst).contains "api_json"
        && ([("api_json", Yaml.str (sha256_file [97, 112])),
          ("original_json", Yaml.str "deadbeef")].map Prod.fst).contains "original_json")
        = true
    ∧ validate_bundle (fun _ => Except.ok (Yaml.map (metaWith hashesW))) ⟨"w4", wfFiles⟩
        = unknownErrorsOf ⟨"w4", wfFiles⟩ ++ sizeErrorsOf ⟨"w4", wfFiles⟩
          ++ ((if yamlEqStr ((List.lookup "api_json"
                [("api_json", Yaml.str (sha256_file [97, 112])),
                 ("original_json", Yaml.str "deadbeef")]).getD Yaml.null)
                (sha256_file (fileContent ⟨"w4", wfFiles⟩ "workflow_api.json"))
              then [] else [ValError.hashMismatch "w4" "api_json"])
            ++ (if yamlEqStr ((List.lookup "original_json"
                [("api_json", Yaml.str (sha256_file [97, 112])),
                 ("original_json", Yaml.str "deadbeef")]).getD Yaml.null)
                (sha256_file (fileContent ⟨"w4", wfFiles⟩ "workflow_original.json"))
              then [] else [ValError.hashMismatch "w4" "original_json"])) := by
  have h1 : missingRequired ⟨"w4", wfFiles⟩ = [] := by decide
  have h2 : (modelsFiles ⟨"w4", wfFiles⟩).length = 1 := by decide
  have h3 : load_metadata (fun _ => Except.ok (Yaml.map (metaWith hashesW)))
      (fileContent ⟨"w4", wfFiles⟩ "metadata.yaml") = Except.ok (metaWith hashesW) := rfl
  have h4 : REQUIRED_META_FIELDS_SORTED.filter
      (fun k => !((metaWith hashesW).map Prod.fst).contains k) = [] := by
    simp [metaWith, hashesW, REQUIRED_META_FIELDS_SORTED]
  have h5 : (if yamlTruthy ((List.lookup "hashes" (metaWith hashesW)).getD Yaml.null)
      then (List.lookup "hashes" (metaWith hashesW)).getD Yaml.null
      else Yaml.map [])
      = Yaml.map [("api_json", Yaml.str (sha256_file [97, 112])),
          ("original_json", Yaml.str "deadbeef")] := rfl
  have h6 : (([("api_json", Yaml.str (sha256_file [97, 112])),
        ("original_json", Yaml.str "deadbeef")].map Prod.fst).contains "api_json"
      && ([("api_json", Yaml.str (sha256_file [97, 112])),
        ("original_json", Yaml.str "deadbeef")].map Prod.fst).contains "original_json")
      = true := rfl
  exact ⟨h1, h2, h3, h4, h5, h6,
    (spec_c4_hash_verification _ _ _ _ h1 h2 h3 h4 h5 h6).1⟩

/-- The shared error list accumulated by `main`'s loop is the
concatenation of the per-bundle error lists. -/
lemma errors_foldl (pv : List Nat → Except String Yaml) (bs : List Bundle)
    (acc : List ValError) :
    bs.foldl (fun acc b => acc ++ validate_bundle pv b) acc
      = acc ++ (bs.map (validate_bundle pv)).flatten := by
  induction bs generalizing acc with
  | nil => simp
  | cons b rest ih => simp [ih, List.append_assoc]

/-- **C7** — the process exits 1 exactly when the root does not exist or
some bundle produced at least one error; the exit code is always 0 or 1;
and an existing root with no bundles yields exit 0 with just the
warning line. -/
theorem spec_c7_exit_codes (pv : List Nat → Except String Yaml) (rootPath : String)
    (rootExistsB : Bool) (bundles : List Bundle) :
    ((mainRun pv rootPath rootExistsB bundles).exitCode = 1
      ↔ (rootExistsB = false ∨ ∃ b ∈ bundles, validate_bundle pv b ≠ []))
    ∧ ((mainRun pv rootPath rootExistsB bundles).exitCode = 0
        ∨ (mainRun pv rootPath rootExistsB bundles).exitCode = 1)
    ∧ mainRun pv rootPath true [] = ⟨0, [warningLine]⟩ := by
  have hwarn : mainRun pv rootPath true [] = ⟨0, [warningLine]⟩ := by
    simp [mainRun]
  cases rootExistsB with
  | false => exact ⟨by simp [mainRun], by simp [mainRun], hwarn⟩
  | true =>
    by_cases hb : bundles = []
    · subst hb
      exact ⟨by simp [mainRun], by simp [mainRun], hwarn⟩
    · have hexit : (mainRun pv rootPath true bundles).exitCode
          = if (bundles.map (validate_bundle pv)).flatten = [] then 0 else 1 := by
        by_cases hfe : (bundles.map (validate_bundle pv)).flatten = []
        · simp [mainRun, hb, errors_foldl, hfe]
        · simp [mainRun, hb, errors_foldl, hfe]
      have hiff : (bundles.map (validate_bundle pv)).flatten = []
          ↔ ∀ b ∈ bundles, validate_bundle pv b = [] := by
        rw [List.flatten_eq_nil_iff]
        constructor
        · intro h b hbm
          exact h _ (List.mem_map_of_mem _ hbm)
        · intro h l hl
          obtain ⟨b, hbm, rfl⟩ := List.mem_map.mp hl
          exact h b hbm
      refine ⟨?_, ?_, hwarn⟩
      · rw [hexit]
        by_cases hfe : (bundles.map (validate_bundle pv)).flatten = []
        · rw [if_pos hfe]
          constructor
          · intro h
            exact absurd h (by decide)
          · rintro (h | ⟨b, hbm, hne⟩)
            · exact absurd h (by decide)
            · exact absurd (hiff.mp hfe b hbm) hne
        · rw [if_neg hfe]
          constructor
          · intro _
            right
            by_contra hno
            push_neg at hno
            exact hfe (hiff.mpr hno)
          · intro _
            rfl
      · rw [hexit]
        by_cases hfe : (bundles.map (validate_bundle pv)).flatten = []
        · rw [if_pos hfe]
          left
          rfl
        · rw [if_neg hfe]
          right
          rfl

/-- The number of occurrences of one error in an error list. -/
def countE (e : ValError) (l : List ValError) : Nat :=
  (l.filter fun x => decide (x = e)).length

/-- `countE` distributes over append. -/
lemma countE_append (e : ValError) (l1 l2 : List ValError) :
    countE e (l1 ++ l2) = countE e l1 + countE e l2 := by
  simp [countE, List.filter_append]

/-- `countE` on a cons. -/
lemma countE_cons (e x : ValError) (l : List ValError) :
    countE e (x :: l) = (if x = e then 1 else 0) + countE e l := by
  simp only [countE, List.filter_cons]
  by_cases h : x = e
  · simp [h, Nat.add_comm]
  · simp [h]

/-- An error absent from a list occurs zero times. -/
lemma countE_not_mem (e : ValError) (l : List ValError) (h : e ∉ l) :
    countE e l = 0 := by
  induction l with
  | nil => rfl
  | cons x rest ih =>
    rw [countE_cons]
    have hxe : x ≠ e := fun hx => h (hx ▸ List.mem_cons_self x rest)
    rw [if_neg hxe, ih (fun hm => h (List.mem_cons_of_mem x hm))]

/-- No unknown-file error is an oversize error. -/
lemma oversize_not_mem_unknownErrorsOf (b : Bundle) (p n : String) :
    ValError.oversize p n ∉ unknownErrorsOf b := by
  unfold unknownErrorsOf
  split <;> simp

/-- No metadata-stage error is an oversize error. -/
lemma oversize_not_mem_metaErrorsOf (pv : List Nat → Except String Yaml)
    (b : Bundle) (p n : String) : ValError.oversize p n ∉ metaErrorsOf pv b := by
  unfold metaErrorsOf
  cases load_metadata pv (fileContent b "metadata.yaml") with
  | error e => simp
  | ok meta =>
    simp only
    split
    · split
      · split
        · intro hmem
          rcases List.mem_append.mp hmem with h | h
          · split at h <;> simp at h
          · split at h <;> simp at h
        · simp
      · simp
    · simp

/-- A name outside the size-check targets contributes no oversize error
for it. -/
lemma countE_oversize_filterMap_zero (b : Bundle) (p : String) :
    ∀ (targets : List String) (n : String), n ∉ targets →
    countE (ValError.oversize p n)
      (targets.filterMap fun m =>
        if MAX_SIZE_BYTES < fileSize b m then some (ValError.oversize p m) else none)
      = 0 := by
  intro targets
  induction targets with
  | nil =>
    intro n _
    rfl
  | cons t ts ih =>
    intro n hn
    have hnt : n ≠ t := fun h => hn (h ▸ List.mem_cons_self t ts)
    have hnts : n ∉ ts := fun h => hn (List.mem_cons_of_mem t h)
    rw [List.filterMap_cons]
    by_cases hc : MAX_SIZE_BYTES < fileSize b t
    · rw [if_pos hc, countE_cons, ih n hnts,
        if_neg (fun h => hnt (ValError.oversize.injEq p t p n ▸ h).2.symm)]
    · rw [if_neg hc]
      exact ih n hnts

/-- A target name contributes exactly one oversize error when its size
exceeds the cap, and none otherwise (given distinct target names). -/
lemma countE_oversize_filterMap (b : Bundle) (p : String) :
    ∀ (targets : List String) (n : String), targets.Nodup → n ∈ targets →
    countE (ValError.oversize p n)
      (targets.filterMap fun m =>
        if MAX_SIZE_BYTES < fileSize b m then some (ValError.oversize p m) else none)
      = if MAX_SIZE_BYTES < fileSize b n then 1 else 0 := by
  intro targets
  induction targets with
  | nil =>
    intro n _ hn
    exact absurd hn (List.not_mem_nil n)
  | cons t ts ih =>
    intro n hnd hn
    rw [List.filterMap_cons]
    rcases List.mem_cons.mp hn with rfl | hmem
    · have hnts : n ∉ ts := (List.nodup_cons.mp hnd).1
      by_cases hc : MAX_SIZE_BYTES < fileSize b n
      · rw [if_pos hc, countE_cons, if_pos rfl,
          countE_oversize_filterMap_zero b p ts n hnts, if_pos hc]
      · rw [if_neg hc, countE_oversize_filterMap_zero b p ts n hnts, if_neg hc]
    · have hnt : n ≠ t := fun h =>
        (List.nodup_cons.mp hnd).1 (h ▸ hmem)
      by_cases hc : MAX_SIZE_BYTES < fileSize b t
      · rw [if_pos hc, countE_cons,
          if_neg (fun h => hnt (ValError.oversize.injEq p t p n ▸ h).2.symm)]
        rw [ih n (List.nodup_cons.mp hnd).2 hmem]
        simp
      · rw [if_neg hc]
        exact ih n (List.nodup_cons.mp hnd).2 hmem

/-- With duplicate-free directory entries, the size-check targets are
duplicate-free: the three required names, then the models files (whose
`.models` suffix no required name has). -/
lemma targets_nodup (b : Bundle) (hwf : (b.files.map FileEntry.name).Nodup) :
    (REQUIRED_FILES_SORTED ++ modelsFiles b).Nodup := by
  rw [List.nodup_append]
  refine ⟨by decide, hwf.filter _, ?_⟩
  intro n hn hmem
  have h2 := (List.mem_filter.mp hmem).2
  have h3 : pySuffix n = ".models" := eq_of_beq h2
  have hn3 : n = "metadata.yaml" ∨ n = "workflow_api.json"
      ∨ n = "workflow_original.json" := by
    simpa [REQUIRED_FILES_SORTED] using hn
  rcases hn3 with rfl | rfl | rfl <;> exact absurd h3 (by decide)

/-- **C8** — for a bundle passing the required-file and models-count
checks, each of the three required files and the single models file
produces exactly one individually-named oversize error when its size
strictly exceeds 2 MiB and none otherwise (a file of exactly
2 MiB = 2 * 1024 * 1024 bytes produces none), and the size check is
non-fatal: the metadata stage still contributes its errors afterwards. -/
theorem spec_c8_size_check (pv : List Nat → Except String Yaml) (b : Bundle)
    (hwf : (b.files.map FileEntry.name).Nodup)
    (hreq : missingRequired b = []) (hmod : (modelsFiles b).length = 1) :
    validate_bundle pv b = unknownErrorsOf b ++ sizeErrorsOf b ++ metaErrorsOf pv b
    ∧ ∀ n ∈ REQUIRED_FILES_SORTED ++ modelsFiles b,
        countE (ValError.oversize b.path n) (validate_bundle pv b)
          = if MAX_SIZE_BYTES < fileSize b n then 1 else 0 := by
  have hpass := validate_bundle_passes pv b hreq hmod
  refine ⟨hpass, ?_⟩
  intro n hn
  rw [hpass, countE_append, countE_append,
    countE_not_mem _ _ (oversize_not_mem_unknownErrorsOf b b.path n),
    countE_not_mem _ _ (oversize_not_mem_metaErrorsOf pv b b.path n)]
  rw [sizeErrorsOf]
  rw [countE_oversize_filterMap b b.path (REQUIRED_FILES_SORTED ++ modelsFiles b) n
    (targets_nodup b hwf) hn]
  omega

/-- C8's witness bundle: `workflow_api.json` one byte over the cap,
`workflow_original.json` exactly at the cap. -/
def bundleC8 : Bundle :=
  ⟨"w8", [⟨"metadata.yaml", 10, [109]⟩, ⟨"workflow_api.json", 2097153, [97]⟩,
          ⟨"workflow_original.json", 2097152, [111]⟩, ⟨"wf.models", 2, [107]⟩]⟩

/-- **C8** witness: with one file a byte over 2 MiB and one exactly at
2 MiB, the oversize-error counts are as stated. -/
theorem spec_c8_size_check_witness :
    (bundleC8.files.map FileEntry.name).Nodup
    ∧ missingRequired bundleC8 = []
    ∧ (modelsFiles bundleC8).length = 1
    ∧ (validate_bundle (fun _ => Except.error "e") bundleC8
        = unknownErrorsOf bundleC8 ++ sizeErrorsOf bundleC8
          ++ metaErrorsOf (fun _ => Except.error "e") bundleC8
      ∧ ∀ n ∈ REQUIRED_FILES_SORTED ++ modelsFiles bundleC8,
          countE (ValError.oversize "w8" n) (validate_bundle (fun _ => Except.error "e") bundleC8)
            = if MAX_SIZE_BYTES < fileSize bundleC8 n then 1 else 0) := by
  have h0 : (bundleC8.files.map FileEntry.name).Nodup := by decide
  have h1 : missingRequired bundleC8 = [] := by decide
  have h2 : (modelsFiles bundleC8).length = 1 := by decide
  exact ⟨h0, h1, h2, spec_c8_size_check (fun _ => Except.error "e") bundleC8 h0 h1 h2⟩
